import Mathlib

/-!
Shallow embedding of `src/main.py` (market-digest-backend), a small HTTP
service that proxies a market-data provider.  JSON scalar values are
modelled by `Atom` (Python `None`, `int`, `float`, `str`, `bool`); floats
are modelled as rationals, so IEEE special values (inf/NaN) and the
shortest-repr / scientific rendering of extreme floats are outside the
model.  Upstream HTTP calls are modelled by an `Env` of possibly-failing
endpoint functions; `http_get` converts a failure into the caller-supplied
empty value, as the Python helper returns `{}` on any error.
-/

namespace MarketDigest

/-- A Python/JSON scalar value as it appears in decoded upstream payloads. -/
inductive Atom where
  | anull
  | aint (n : ℤ)
  | anum (q : ℚ)
  | astr (s : String)
  | abool (b : Bool)
  deriving DecidableEq, Repr

/-- ASCII whitespace recognised by Python's `str.strip()` / `float()`
(space, tab, newline, carriage return, vertical tab, form feed). -/
def isPySpace (c : Char) : Bool :=
  c == ' ' || c == '\t' || c == '\n' || c == '\r' || c == '\x0b' || c == '\x0c'

/-- `str.strip()` on a character list: drop whitespace at both ends. -/
def stripList (l : List Char) : List Char :=
  ((l.dropWhile isPySpace).reverse.dropWhile isPySpace).reverse

/-- Python `str.strip()`. -/
def pyStrip (s : String) : String := String.mk (stripList s.data)

/-- Python `str.upper()` restricted to ASCII letters (ticker symbols are
ASCII; the Unicode case table is not modelled). -/
def pyUpperChar (c : Char) : Char :=
  if 97 ≤ c.toNat ∧ c.toNat ≤ 122 then Char.ofNat (c.toNat - 32) else c

/-- Python `str.upper()` on a whole string. -/
def pyUpper (s : String) : String := String.mk (s.data.map pyUpperChar)

/-- `str.split(sep)` worker for a one-character separator: accumulate the
current (reversed) chunk, cut at every separator. -/
def splitChAux (sep : Char) (acc : List Char) : List Char → List (List Char)
  | [] => [acc.reverse]
  | c :: rest =>
      if c = sep then acc.reverse :: splitChAux sep [] rest
      else splitChAux sep (c :: acc) rest

/-- Python `s.split(sep)` for a one-character separator (with an explicit
separator the result is never empty; `"".split(",") == [""]`). -/
def splitCh (sep : Char) (s : String) : List String :=
  (splitChAux sep [] s.data).map String.mk

/-- Python `tickers.split(",")`. -/
def pySplitComma (s : String) : List String := splitCh ',' s

/-- ASCII digit test (`str.isdigit()` restricted to ASCII digits). -/
def isDigitB (c : Char) : Bool := '0' ≤ c && c ≤ '9'

/-- Numeric value of a digit list, most significant first. -/
def digitsToNat (l : List Char) : Nat :=
  l.foldl (fun a c => a * 10 + (c.toNat - 48)) 0

/-- Mantissa part of Python's `float(str)` grammar: digits, optionally a
dot with digits on at least one side.  Returns the value and the rest. -/
def parseMantissa (l : List Char) : Option (ℚ × List Char) :=
  let ip := l.takeWhile isDigitB
  let r1 := l.dropWhile isDigitB
  match r1 with
  | '.' :: r2 =>
      let fp := r2.takeWhile isDigitB
      let r3 := r2.dropWhile isDigitB
      if ip.isEmpty && fp.isEmpty then none
      else some ((digitsToNat ip : ℚ) + (digitsToNat fp : ℚ) / (10 ^ fp.length), r3)
  | _ => if ip.isEmpty then none else some ((digitsToNat ip : ℚ), r1)

/-- Exponent part of Python's `float(str)` grammar (`e`/`E`, optional
sign, digits); `none` on trailing junk. -/
def parseExp (l : List Char) : Option ℤ :=
  match l with
  | [] => some 0
  | e :: r =>
      if e = 'e' ∨ e = 'E' then
        let p : ℤ × List Char :=
          match r with
          | '+' :: t => (1, t)
          | '-' :: t => (-1, t)
          | t => (1, t)
        let ds := p.2.takeWhile isDigitB
        let r3 := p.2.dropWhile isDigitB
        if ds.isEmpty ∨ ¬ r3.isEmpty then none
        else some (p.1 * (digitsToNat ds : ℤ))
      else none

/-- Integer power of ten over ℚ (negative exponents divide). -/
def qpow10 (e : ℤ) : ℚ :=
  if 0 ≤ e then ((10 : ℚ) ^ e.toNat) else 1 / ((10 : ℚ) ^ (-e).toNat)

/-- Python `float(s)` for strings: surrounding whitespace, optional sign,
mantissa, optional exponent.  (`inf`/`nan` and digit-group underscores are
outside the rational model.) -/
def pyFloatString (s : String) : Option ℚ :=
  let l := stripList s.data
  let p : ℚ × List Char :=
    match l with
    | '+' :: t => (1, t)
    | '-' :: t => (-1, t)
    | t => (1, t)
  match parseMantissa p.2 with
  | none => none
  | some (m, rest) =>
      match parseExp rest with
      | none => none
      | some e => some (p.1 * m * qpow10 e)

/-- Python `float(x)`: `none` where `float` raises (`None`, unparseable
strings), otherwise the coerced rational. -/
def pyFloat : Atom → Option ℚ
  | .anull => none
  | .aint n => some (n : ℚ)
  | .anum q => some q
  | .astr s => pyFloatString s
  | .abool b => some (if b then 1 else 0)

/-- Banker's rounding (round half to even) to an integer, as Python's
built-in `round`. -/
def roundHalfEven (q : ℚ) : ℤ :=
  let f := Rat.floor q
  if q - f < 1 / 2 then f
  else if q - f > 1 / 2 then f + 1
  else if f % 2 = 0 then f else f + 1

/-- Python `round(q, 4)`. -/
def round4 (q : ℚ) : ℚ := (roundHalfEven (q * 10000) : ℚ) / 10000

/-- `normalize_div_yield` from src/main.py: `None` stays null, a value
that `float` cannot coerce becomes null, a value strictly between 0 and 1
is read as a fraction and scaled to percent, anything else passes through;
both branches round to 4 places. -/
def normalize_div_yield (raw : Atom) : Option ℚ :=
  if raw = .anull then none
  else
    match pyFloat raw with
    | none => none
    | some val =>
        if 0 < val ∧ val < 1 then some (round4 (val * 100))
        else some (round4 val)

/-- Smallest `k ≤ 39` with `den ∣ 10^k`, if any: the decimal length of a
terminating fraction. -/
def pow10Exp (den : Nat) : Option Nat :=
  (List.range 40).find? (fun k => (10 ^ k) % den == 0)

/-- Decimal rendering of a rational, as Python `str()` renders a float
with a terminating short decimal expansion (`12.0`, `-0.5`); rationals
without a short terminating expansion get a marker rendering, standing in
for Python's scientific notation, which the model does not reproduce. -/
def decString (q : ℚ) : String :=
  match pow10Exp q.den with
  | some k =>
      let n := q.num.natAbs * ((10 ^ k) / q.den)
      let sgn := if q.num < 0 then "-" else ""
      if k = 0 then sgn ++ toString n ++ ".0"
      else
        let ds := (toString n).data
        let ds := if ds.length ≤ k then List.replicate (k + 1 - ds.length) '0' ++ ds else ds
        sgn ++ String.mk (ds.take (ds.length - k)) ++ "." ++ String.mk (ds.drop (ds.length - k))
  | none => "~" ++ toString q.num ++ "/" ++ toString q.den

/-- Python `str(x)` on scalar values. -/
def pyStr : Atom → String
  | .anull => "None"
  | .aint n => toString n
  | .anum q => decString q
  | .astr s => s
  | .abool b => if b then "True" else "False"

/-- Python `dict.get(k)`: the stored value, or `None` when the key is
absent (a stored JSON `null` and an absent key are indistinguishable). -/
def pyGet (m : List (String × Atom)) (k : String) : Atom :=
  match m.find? (fun p => p.1 == k) with
  | some p => p.2
  | none => .anull

/-- Python `==` between a decoded JSON value and a string: true only for
an equal string. -/
def atomEqString : Atom → String → Bool
  | .astr s, t => s == t
  | _, _ => false

/-- Python truthiness of a scalar value. -/
def pyTruthy : Atom → Bool
  | .anull => false
  | .aint n => n != 0
  | .anum q => q != 0
  | .astr s => s != ""
  | .abool b => b

/-! ### Dates (`datetime.strptime(_, "%Y-%m-%d")` / `date.isoformat`) -/

/-- A calendar date as produced by `datetime.strptime(s, "%Y-%m-%d").date()`. -/
structure Date where
  y : Nat
  m : Nat
  d : Nat
  deriving DecidableEq, Repr

/-- Numeric key realising the lexicographic (year, month, day) order of
Python `date` comparison, faithful for parsed dates (month/day < 100). -/
def Date.key (dt : Date) : Nat := dt.y * 10000 + dt.m * 100 + dt.d

/-- Gregorian leap-year rule used by `datetime.date` validation. -/
def leapYear (y : Nat) : Bool :=
  y % 4 == 0 && (y % 100 != 0 || y % 400 == 0)

/-- Days in a month, as `datetime.date` validates the day field. -/
def daysInMonth (y m : Nat) : Nat :=
  if m = 2 then (if leapYear y then 29 else 28)
  else if m = 4 ∨ m = 6 ∨ m = 9 ∨ m = 11 then 30
  else 31

/-- Non-empty all-ASCII-digit test. -/
def allDigits (l : List Char) : Bool := !l.isEmpty && l.all isDigitB

/-- `datetime.strptime(s, "%Y-%m-%d").date()`: `%Y` matches 1–4 digits,
`%m`/`%d` match 1–2 digits, literal dashes in between, nothing left over,
and the date must be a valid Gregorian date (else `ValueError`, modelled
as `none`). -/
def parseDate (s : String) : Option Date :=
  match splitCh '-' s with
  | [ys, ms, ds] =>
      if allDigits ys.data && ys.length ≤ 4 && allDigits ms.data && ms.length ≤ 2
          && allDigits ds.data && ds.length ≤ 2 then
        let y := digitsToNat ys.data
        let m := digitsToNat ms.data
        let d := digitsToNat ds.data
        if 1 ≤ y ∧ 1 ≤ m ∧ m ≤ 12 ∧ 1 ≤ d ∧ d ≤ daysInMonth y m then some ⟨y, m, d⟩
        else none
      else none
  | _ => none

/-- Left-pad a numeral with zeros to width `w`. -/
def padZeros (w : Nat) (n : Nat) : String :=
  let s := toString n
  String.mk (List.replicate (w - s.length) '0') ++ s

/-- Python `date.isoformat()`: zero-padded `YYYY-MM-DD`. -/
def Date.isoformat (dt : Date) : String :=
  padZeros 4 dt.y ++ "-" ++ padZeros 2 dt.m ++ "-" ++ padZeros 2 dt.d

/-- One step of Python `min`: keep the accumulator unless the next
element is strictly smaller. -/
def minDate (a b : Date) : Date := if b.key < a.key then b else a

/-- Python `min(list)` over dates, `none` on the empty list (where Python
raises, a case the source rules out first). -/
def minD : List Date → Option Date
  | [] => none
  | d :: rest => some (rest.foldl minDate d)

/-! ### Upstream environment and the `http_get` helper -/

/-- Quote payload from `/quote` (fields `c`, `dp`, `v`, `l`, `h`; an
absent field is `anull`, as `dict.get` conflates absent and null). -/
structure Quote where
  c : Atom
  dp : Atom
  v : Atom
  l : Atom
  h : Atom
  deriving DecidableEq, Repr

/-- The empty quote object `{}`. -/
def emptyQuote : Quote := ⟨.anull, .anull, .anull, .anull, .anull⟩

/-- One entry of the `/calendar/earnings` payload (fields accessed:
`symbol`, `date`). -/
structure CalRow where
  symbol : Atom
  date : Atom
  deriving DecidableEq, Repr

/-- One raw item of the `/company-news` payload (fields accessed:
`headline`, `source`, `datetime`, `url`). -/
structure NewsRaw where
  headline : Atom
  source : Atom
  dt : Atom
  url : Atom
  deriving DecidableEq, Repr

/-- The upstream provider: each endpoint either yields a decoded payload
or fails (any transport error or non-2xx status). -/
structure Env where
  quote : String → Except Unit Quote
  metricPayload : String → Except Unit (Option (List (String × Atom)))
  earningsCal : Except Unit (Option (List CalRow))
  news : String → ℤ → ℤ → Except Unit (List NewsRaw)

/-- `http_get` from src/main.py: a failing call is logged and becomes the
endpoint's empty result instead of raising. -/
def http_get {α : Type} (call : Except Unit α) (emptyResult : α) : α :=
  match call with
  | .ok v => v
  | .error _ => emptyResult

/-- `http_get("/quote", ...)`: `{}` (all fields null) on failure. -/
def http_get_quote (env : Env) (sym : String) : Quote :=
  http_get (env.quote sym) emptyQuote

/-- `(data or {}).get("metric", {}) or {}` over the `/stock/metric` call:
a failed call or an absent/null `metric` key yields the empty dict. -/
def metricDict (env : Env) (sym : String) : List (String × Atom) :=
  match http_get (env.metricPayload sym) none with
  | some d => d
  | none => []

/-- `payload.get("earningsCalendar") or []` over `/calendar/earnings`. -/
def calOf (env : Env) : List CalRow :=
  match http_get env.earningsCal none with
  | some l => l
  | none => []

/-- `http_get("/company-news", ...) or []`. -/
def http_get_news (env : Env) (sym : String) (fromT toT : ℤ) : List NewsRaw :=
  http_get (env.news sym fromT toT) []

/-! ### Metric normalisation (`get_metrics`) -/

/-- P/E candidate: `metric.get("peBasicExclExtraTTM")`, falling back to
`metric.get("peTTM")` when the first is `None`. -/
def peCand (m : List (String × Atom)) : Atom :=
  let pe := pyGet m "peBasicExclExtraTTM"
  if pe = .anull then pyGet m "peTTM" else pe

/-- EPS candidate: `epsInclExtraItemsTTM`, then `epsTTM`, then
`epsNormalizedAnnual`, each tried when the previous is `None`. -/
def epsCand (m : List (String × Atom)) : Atom :=
  let e1 := pyGet m "epsInclExtraItemsTTM"
  let e2 := if e1 = .anull then pyGet m "epsTTM" else e1
  if e2 = .anull then pyGet m "epsNormalizedAnnual" else e2

/-- Remove the first `'.'` only: Python `s.replace('.', '', 1)`. -/
def removeFirstDot : List Char → List Char
  | [] => []
  | c :: r => if c = '.' then r else c :: removeFirstDot r

/-- The guard `str(x).replace('.', '', 1).lstrip('-').isdigit()` from
`get_metrics`: drop the first dot, strip every leading dash, require a
non-empty all-digit remainder. -/
def digitGuard (s : String) : Bool :=
  allDigits ((removeFirstDot s.data).dropWhile (· == '-'))

/-- `isinstance(x, (int, float, str))`; Python `bool` is a subclass of
`int`, so only `None` fails it among scalars. -/
def isinstanceNumStr : Atom → Bool
  | .anull => false
  | _ => true

/-- The coercion `float(x) if isinstance(...) and <digit guard> else None`
from `get_metrics`.  When the guard passes but `float` still raises (the
guard strips every leading dash, so e.g. `"--5"` passes it), the
exception is uncaught: modelled as `.error ()`. -/
def coerceField (x : Atom) : Except Unit (Option ℚ) :=
  if isinstanceNumStr x && digitGuard (pyStr x) then
    match pyFloat x with
    | some q => .ok (some q)
    | none => .error ()
  else .ok none

/-- Output record of `get_metrics`. -/
structure MetricsRec where
  pe_ttm : Option ℚ
  eps_ttm : Option ℚ
  div_yield_pct : Option ℚ
  deriving DecidableEq, Repr

/-- `get_metrics` from src/main.py; `.error ()` is an uncaught exception
escaping the function. -/
def get_metrics (env : Env) (sym : String) : Except Unit MetricsRec :=
  let m := metricDict env sym
  match coerceField (peCand m) with
  | .error e => .error e
  | .ok pe =>
      match coerceField (epsCand m) with
      | .error e => .error e
      | .ok eps =>
          .ok ⟨pe, eps, normalize_div_yield (pyGet m "dividendYieldIndicatedAnnual")⟩

/-! ### Earnings resolver (`get_next_earnings`) -/

/-- `strptime(row["date"], "%Y-%m-%d")` inside the `try`: a non-string
value raises (modelled `none`), a string parses or raises. -/
def rowParsedDate (row : CalRow) : Option Date :=
  match row.date with
  | .astr s => parseDate s
  | _ => none

/-- The `future_dates` list of `get_next_earnings`: entries whose symbol
equals `symbol` and whose date field is truthy, parsed, kept when on or
after `today` (parse failures skipped by the `except: continue`). -/
def futureDates (cal : List CalRow) (symbol : String) (today : Date) : List Date :=
  (cal.filter (fun row => atomEqString row.symbol symbol && pyTruthy row.date)).filterMap
    (fun row => (rowParsedDate row).bind
      (fun d => if today.key ≤ d.key then some d else none))

/-- `get_next_earnings` from src/main.py (the `from`/`to` request window
only selects the upstream payload, which the model quantifies over). -/
def get_next_earnings (env : Env) (symbol : String) (today : Date) : Option String :=
  match minD (futureDates (calOf env) symbol today) with
  | none => none
  | some d => some d.isoformat

/-! ### Endpoint handlers -/

/-- A handler outcome that is not a JSON payload: an explicit
`HTTPException`, or an uncaught Python exception (`exn`). -/
inductive HErr where
  | httpError (status : Nat) (detail : String)
  | exn
  deriving DecidableEq, Repr

/-- The 400 detail message used by all three ticker endpoints. -/
def noTickersDetail : String := "Provide ?tickers=COMMA,SEP,SYMBOLS"

/-- HTTP status of a handler outcome (200 on success, 500 for an
uncaught exception, as the hosting framework reports them). -/
def respStatus {α : Type} : Except HErr α → Nat
  | .ok _ => 200
  | .error (.httpError st _) => st
  | .error .exn => 500

/-- Required-query-parameter semantics of the route declarations
(`tickers: str` with no default under FastAPI): a request without the
parameter is rejected by framework validation with a 422 response and the
handler body never runs; a request with the parameter runs the handler. -/
def dispatchRequired {α : Type} (handler : String → Except HErr α) :
    Option String → Except HErr α
  | none => .error (.httpError 422 "Field required")
  | some s => handler s

/-- One `QuoteSnapshot` record of `get_market_snapshot`. -/
structure SnapRec where
  ticker : String
  price : Atom
  change_pct : Atom
  volume : Atom
  range_day : Option String
  range_52w : Atom
  market_cap : Atom
  beta : Atom
  notes : List Atom
  deriving DecidableEq, Repr

/-- Body of one loop iteration of `get_market_snapshot` for symbol `sym`:
fetch the quote (empty on failure) and build the record; `range_day` is
rendered with the U+2013 dash exactly as in the f-string. -/
def mkSnapRec (env : Env) (sym : String) : SnapRec :=
  let q := http_get_quote env sym
  { ticker := sym
    price := q.c
    change_pct := q.dp
    volume := q.v
    range_day :=
      if q.l ≠ .anull ∧ q.h ≠ .anull then some (pyStr q.l ++ "–" ++ pyStr q.h) else none
    range_52w := .anull
    market_cap := .anull
    beta := .anull
    notes := [] }

/-- The per-ticker loop of `get_market_snapshot`: strip, uppercase, skip
empties, append a record per remaining symbol, in order. -/
def snapLoop (env : Env) : List String → List SnapRec
  | [] => []
  | t :: rest =>
      let sym := pyUpper (pyStrip t)
      if sym = "" then snapLoop env rest
      else mkSnapRec env sym :: snapLoop env rest

/-- Response shape `{as_of, tickers}` of `get_market_snapshot`. -/
structure SnapshotResp where
  as_of : ℤ
  tickers : List SnapRec
  deriving DecidableEq, Repr

/-- `get_market_snapshot` from src/main.py (the unused `interval`
parameter is elided; `now` stands for `datetime.utcnow()`). -/
def get_market_snapshot (env : Env) (now : ℤ) (tickers : String) :
    Except HErr SnapshotResp :=
  if tickers = "" then .error (.httpError 400 noTickersDetail)
  else .ok ⟨now, snapLoop env (pySplitComma tickers)⟩

/-- One `FundamentalsRecord`. -/
structure FundRec where
  ticker : String
  pe_ttm : Option ℚ
  div_yield_pct : Option ℚ
  eps_ttm : Option ℚ
  next_earnings : Option String
  deriving DecidableEq, Repr

/-- The per-ticker loop of `get_fundamentals`; an exception escaping
`get_metrics` aborts the whole loop. -/
def fundLoop (env : Env) (today : Date) : List String → Except Unit (List FundRec)
  | [] => .ok []
  | t :: rest =>
      let sym := pyUpper (pyStrip t)
      if sym = "" then fundLoop env today rest
      else
        match get_metrics env sym with
        | .error e => .error e
        | .ok mr =>
            match fundLoop env today rest with
            | .error e => .error e
            | .ok rs =>
                .ok (⟨sym, mr.pe_ttm, mr.div_yield_pct, mr.eps_ttm,
                      get_next_earnings env sym today⟩ :: rs)

/-- Response shape `{tickers}` of `get_fundamentals`. -/
structure FundResp where
  tickers : List FundRec
  deriving DecidableEq, Repr

/-- `get_fundamentals` from src/main.py; an uncaught exception in the
loop surfaces as `HErr.exn` (the framework's 500). -/
def get_fundamentals (env : Env) (today : Date) (tickers : String) :
    Except HErr FundResp :=
  if tickers = "" then .error (.httpError 400 noTickersDetail)
  else
    match fundLoop env today (pySplitComma tickers) with
    | .ok rs => .ok ⟨rs⟩
    | .error _ => .error .exn

/-- One output headline record of `get_news_brief`. -/
structure NewsItem where
  headline : Atom
  source : Atom
  time : String
  url : Atom
  deriving DecidableEq, Repr

/-- One `NewsDigest` record. -/
structure NewsDigest where
  ticker : String
  items : List NewsItem
  deriving DecidableEq, Repr

/-- Build one output headline record (`time` is `str(n.get("datetime"))`). -/
def mkNewsItem (n : NewsRaw) : NewsItem :=
  ⟨n.headline, n.source, pyStr n.dt, n.url⟩

/-- The per-ticker loop of `get_news_brief`: first 3 upstream items, in
upstream order. -/
def newsLoop (env : Env) (fromT toT : ℤ) : List String → List NewsDigest
  | [] => []
  | t :: rest =>
      let sym := pyUpper (pyStrip t)
      if sym = "" then newsLoop env fromT toT rest
      else ⟨sym, ((http_get_news env sym fromT toT).take 3).map mkNewsItem⟩
        :: newsLoop env fromT toT rest

/-- Response shape `{news}` of `get_news_brief`. -/
structure NewsResp where
  news : List NewsDigest
  deriving DecidableEq, Repr

/-- `get_news_brief` from src/main.py: clamp `lookback_hours` into
`[1, 24*7]`, window `[now - clamp, now]` (time in whole hours; the
`%Y-%m-%d` rendering of the window endpoints is abstracted into the
integer timestamps handed to the upstream call). -/
def get_news_brief (env : Env) (now : ℤ) (tickers : String)
    (lookback_hours : ℤ) : Except HErr NewsResp :=
  if tickers = "" then .error (.httpError 400 noTickersDetail)
  else
    let fromT := now - max 1 (min lookback_hours (24 * 7))
    .ok ⟨newsLoop env fromT now (pySplitComma tickers)⟩

/-! ### Derived observables and concrete environments used in theorems -/

/-- Strip, uppercase and drop empties over a token list: the value of the
per-ticker loops' symbol processing. -/
def parseToks (toks : List String) : List String :=
  (toks.map (fun t => pyUpper (pyStrip t))).filter (fun s => decide (s ≠ ""))

/-- The `TickerQuery` of the spec: comma-split, strip, uppercase, drop
empties, order preserved. -/
def pyParseTickers (s : String) : List String := parseToks (pySplitComma s)

/-- A date `d` qualifies for `next_earnings(symbol, today)`: some
calendar row carries exactly `symbol`, a string date parsing to `d`, and
`d` is on or after `today`. -/
def Qualifies (cal : List CalRow) (symbol : String) (today : Date) (d : Date) : Prop :=
  ∃ row ∈ cal, row.symbol = .astr symbol ∧
    ∃ s, row.date = .astr s ∧ parseDate s = some d ∧ today.key ≤ d.key

/-- Environment whose every upstream call fails. -/
def envFail : Env :=
  ⟨fun _ => .error (), fun _ => .error (), .error (), fun _ _ _ => .error ()⟩

/-- Environment with the spec's example earnings calendar for symbol "X". -/
def envCal : Env :=
  { envFail with
    earningsCal := .ok (some
      [⟨.astr "X", .astr "2099-01-01"⟩, ⟨.astr "X", .astr "2099-03-01"⟩]) }

/-- `today` of the spec's earnings example. -/
def d20981201 : Date := ⟨2098, 12, 1⟩

/-- Environment whose metrics payload carries the string "--5" as the
preferred P/E candidate. -/
def envBadPE : Env :=
  { envFail with
    metricPayload := fun _ => .ok (some [("peBasicExclExtraTTM", .astr "--5")]) }

/-- Environment whose quote endpoint returns a fully populated quote. -/
def envQuote : Env :=
  { envFail with
    quote := fun _ => .ok ⟨.aint 1, .aint 2, .aint 3, .aint 4, .aint 5⟩ }

/-! ### Helper lemmas -/

theorem pyUpperChar_idem (c : Char) : pyUpperChar (pyUpperChar c) = pyUpperChar c := by
  unfold pyUpperChar
  split
  · next hc =>
    have h1 : (Char.ofNat (c.toNat - 32)).toNat = c.toNat - 32 := by
      have hv : Nat.isValidChar (c.toNat - 32) := Or.inl (by omega)
      simp [Char.ofNat, hv]
      rfl
    rw [if_neg]
    omega
  · rfl

theorem map_pyUpperChar_idem (l : List Char) :
    (l.map pyUpperChar).map pyUpperChar = l.map pyUpperChar := by
  induction l with
  | nil => rfl
  | cons c r ih => simp [pyUpperChar_idem, ih]

theorem pyUpper_idem (s : String) : pyUpper (pyUpper s) = pyUpper s := by
  show String.mk ((s.data.map pyUpperChar).map pyUpperChar) = String.mk (s.data.map pyUpperChar)
  rw [map_pyUpperChar_idem]

theorem parseToks_cons (t : String) (rest : List String) :
    parseToks (t :: rest) =
      if pyUpper (pyStrip t) = "" then parseToks rest
      else pyUpper (pyStrip t) :: parseToks rest := by
  by_cases h : pyUpper (pyStrip t) = "" <;>
    simp [parseToks, List.filter_cons, h]

theorem mem_parseToks_nonempty_upper {toks : List String} {s : String}
    (hs : s ∈ parseToks toks) : s ≠ "" ∧ pyUpper s = s := by
  unfold parseToks at hs
  rw [List.mem_filter] at hs
  obtain ⟨hmem, hne⟩ := hs
  rw [List.mem_map] at hmem
  obtain ⟨t, _, ht⟩ := hmem
  refine ⟨by simpa using hne, ?_⟩
  rw [← ht, pyUpper_idem]

theorem snapLoop_eq (env : Env) (toks : List String) :
    snapLoop env toks = (parseToks toks).map (mkSnapRec env) := by
  induction toks with
  | nil => rfl
  | cons t rest ih =>
      rw [parseToks_cons]
      by_cases h : pyUpper (pyStrip t) = "" <;> simp [snapLoop, h, ih]

theorem newsLoop_eq (env : Env) (fromT toT : ℤ) (toks : List String) :
    newsLoop env fromT toT toks = (parseToks toks).map
      (fun sym => ⟨sym, ((http_get_news env sym fromT toT).take 3).map mkNewsItem⟩) := by
  induction toks with
  | nil => rfl
  | cons t rest ih =>
      rw [parseToks_cons]
      by_cases h : pyUpper (pyStrip t) = "" <;> simp [newsLoop, h, ih]

theorem fundLoop_ok_map {env : Env} {today : Date} {toks : List String}
    {rs : List FundRec} (h : fundLoop env today toks = .ok rs) :
    rs.map FundRec.ticker = parseToks toks := by
  induction toks generalizing rs with
  | nil =>
      simp [fundLoop] at h
      simp [← h, parseToks]
  | cons t rest ih =>
      rw [parseToks_cons]
      by_cases hb : pyUpper (pyStrip t) = ""
      · rw [if_pos hb]
        simp only [fundLoop, hb, if_pos] at h
        exact ih h
      · rw [if_neg hb]
        simp only [fundLoop, hb, if_neg, not_false_iff] at h
        cases hm : get_metrics env (pyUpper (pyStrip t)) with
        | error e => rw [hm] at h; exact absurd h (by simp)
        | ok mr =>
            rw [hm] at h
            cases hr : fundLoop env today rest with
            | error e => rw [hr] at h; exact absurd h (by simp)
            | ok rs2 =>
                rw [hr] at h
                obtain rfl : (⟨pyUpper (pyStrip t), mr.pe_ttm, mr.div_yield_pct,
                    mr.eps_ttm, get_next_earnings env (pyUpper (pyStrip t)) today⟩
                      : FundRec) :: rs2 = rs := by simpa using h
                simp [ih hr]

theorem fundLoop_all_blank {env : Env} {today : Date} {toks : List String}
    (h : ∀ t ∈ toks, pyUpper (pyStrip t) = "") :
    fundLoop env today toks = .ok [] := by
  induction toks with
  | nil => rfl
  | cons t rest ih =>
      have hb := h t (by simp)
      simp only [fundLoop, hb, if_pos]
      exact ih (fun u hu => h u (by simp [hu]))

theorem foldl_minDate_mem (rest : List Date) (a : Date) :
    rest.foldl minDate a = a ∨ rest.foldl minDate a ∈ rest := by
  induction rest generalizing a with
  | nil => simp
  | cons b r ih =>
      simp only [List.foldl_cons]
      have hab : minDate a b = a ∨ minDate a b = b := by
        unfold minDate
        split
        · exact Or.inr rfl
        · exact Or.inl rfl
      rcases ih (minDate a b) with h | h
      · rcases hab with hab | hab
        · left; rw [h, hab]
        · right; rw [h, hab]; simp
      · right; simp [h]

theorem foldl_minDate_le_init (rest : List Date) (a : Date) :
    (rest.foldl minDate a).key ≤ a.key := by
  induction rest generalizing a with
  | nil => simp
  | cons b r ih =>
      simp only [List.foldl_cons]
      refine le_trans (ih (minDate a b)) ?_
      unfold minDate
      split <;> omega

theorem foldl_minDate_le_mem (rest : List Date) (a : Date) :
    ∀ x ∈ rest, (rest.foldl minDate a).key ≤ x.key := by
  induction rest generalizing a with
  | nil => simp
  | cons b r ih =>
      intro x hx
      simp only [List.foldl_cons]
      rcases List.mem_cons.mp hx with rfl | hx
      · refine le_trans (foldl_minDate_le_init r (minDate a x)) ?_
        unfold minDate
        split <;> omega
      · exact ih (minDate a b) x hx

theorem minD_mem {l : List Date} {m : Date} (h : minD l = some m) : m ∈ l := by
  cases l with
  | nil => exact absurd h (by simp [minD])
  | cons d rest =>
      obtain rfl : rest.foldl minDate d = m := by simpa [minD] using h
      rcases foldl_minDate_mem rest d with h | h
      · simp [h]
      · simp [h]

theorem minD_le {l : List Date} {m : Date} (h : minD l = some m) :
    ∀ x ∈ l, m.key ≤ x.key := by
  cases l with
  | nil => exact absurd h (by simp [minD])
  | cons d rest =>
      obtain rfl : rest.foldl minDate d = m := by simpa [minD] using h
      intro x hx
      rcases List.mem_cons.mp hx with rfl | hx
      · exact foldl_minDate_le_init rest x
      · exact foldl_minDate_le_mem rest d x hx

theorem minD_eq_none {l : List Date} : minD l = none ↔ l = [] := by
  cases l <;> simp [minD]

theorem atomEqString_iff (a : Atom) (t : String) :
    atomEqString a t = true ↔ a = .astr t := by
  cases a <;> simp [atomEqString]

theorem parseDate_empty : parseDate "" = none := by decide

theorem mem_futureDates {cal : List CalRow} {symbol : String} {today d : Date} :
    d ∈ futureDates cal symbol today ↔ Qualifies cal symbol today d := by
  unfold futureDates Qualifies
  rw [List.mem_filterMap]
  constructor
  · rintro ⟨row, hrow, hbind⟩
    rw [List.mem_filter, Bool.and_eq_true, atomEqString_iff] at hrow
    obtain ⟨hmem, hsym, -⟩ := hrow
    cases hpd : rowParsedDate row with
    | none => rw [hpd] at hbind; exact absurd hbind (by simp)
    | some d0 =>
        rw [hpd] at hbind
        rw [Option.some_bind] at hbind
        split at hbind
        · next hk =>
            obtain rfl : d0 = d := by simpa using hbind
            refine ⟨row, hmem, hsym, ?_⟩
            cases hdate : row.date with
            | astr s =>
                have he : rowParsedDate row = parseDate s := by
                  unfold rowParsedDate
                  rw [hdate]
                exact ⟨s, rfl, by rw [← he, hpd], hk⟩
            | anull => exact absurd hpd (by unfold rowParsedDate; rw [hdate]; simp)
            | aint n => exact absurd hpd (by unfold rowParsedDate; rw [hdate]; simp)
            | anum q => exact absurd hpd (by unfold rowParsedDate; rw [hdate]; simp)
            | abool b => exact absurd hpd (by unfold rowParsedDate; rw [hdate]; simp)
        · exact absurd hbind (by simp)
  · rintro ⟨row, hmem, hsym, s, hdate, hparse, hk⟩
    refine ⟨row, ?_, ?_⟩
    · rw [List.mem_filter, Bool.and_eq_true, atomEqString_iff]
      refine ⟨hmem, hsym, ?_⟩
      have hs : s ≠ "" := by
        rintro rfl
        rw [parseDate_empty] at hparse
        exact absurd hparse (by simp)
      simp [pyTruthy, hdate, hs]
    · simp [rowParsedDate, hdate, hparse, hk]

theorem splitChAux_chars {sep : Char} (l acc : List Char) :
    ∀ part ∈ splitChAux sep acc l, ∀ c ∈ part, c ∈ acc ∨ (c ∈ l ∧ c ≠ sep) := by
  induction l generalizing acc with
  | nil =>
      intro part hp c hc
      simp only [splitChAux, List.mem_singleton] at hp
      subst hp
      exact Or.inl (List.mem_reverse.mp hc)
  | cons b r ih =>
      intro part hp c hc
      simp only [splitChAux] at hp
      split at hp
      · next hb =>
          subst hb
          rcases List.mem_cons.mp hp with rfl | hp
          · exact Or.inl (List.mem_reverse.mp hc)
          · rcases ih [] part hp c hc with h | ⟨h1, h2⟩
            · exact absurd h (by simp)
            · exact Or.inr ⟨by simp [h1], h2⟩
      · next hb =>
          rcases ih (b :: acc) part hp c hc with h | ⟨h1, h2⟩
          · rcases List.mem_cons.mp h with rfl | h
            · exact Or.inr ⟨by simp, hb⟩
            · exact Or.inl h
          · exact Or.inr ⟨by simp [h1], h2⟩

theorem dropWhile_all {p : Char → Bool} (l : List Char)
    (h : ∀ c ∈ l, p c = true) : l.dropWhile p = [] := by
  induction l with
  | nil => rfl
  | cons c r ih =>
      rw [List.dropWhile_cons, if_pos (h c (by simp))]
      exact ih (fun u hu => h u (by simp [hu]))

theorem stripList_all_space (l : List Char) (h : ∀ c ∈ l, isPySpace c = true) :
    stripList l = [] := by
  unfold stripList
  rw [dropWhile_all l h]
  rfl

theorem pyParseTickers_all_sep {ts : String}
    (hch : ∀ c ∈ ts.data, c = ',' ∨ isPySpace c = true) :
    (∀ t ∈ pySplitComma ts, pyUpper (pyStrip t) = "") ∧ pyParseTickers ts = [] := by
  have hblank : ∀ t ∈ pySplitComma ts, pyUpper (pyStrip t) = "" := by
    intro t ht
    unfold pySplitComma splitCh at ht
    rw [List.mem_map] at ht
    obtain ⟨part, hpart, rfl⟩ := ht
    have hchars : ∀ c ∈ part, isPySpace c = true := by
      intro c hc
      rcases splitChAux_chars ts.data [] part hpart c hc with h | ⟨h1, h2⟩
      · exact absurd h (by simp)
      · rcases hch c h1 with rfl | h
        · exact absurd rfl h2
        · exact h
    have : pyStrip (String.mk part) = "" := by
      unfold pyStrip
      rw [show (String.mk part).data = part from rfl, stripList_all_space part hchars]
    rw [this]
    rfl
  refine ⟨hblank, ?_⟩
  unfold pyParseTickers
  have : ∀ toks : List String, (∀ t ∈ toks, pyUpper (pyStrip t) = "") →
      parseToks toks = [] := by
    intro toks
    induction toks with
    | nil => intro _; rfl
    | cons t rest ih =>
        intro h
        rw [parseToks_cons, if_pos (h t (by simp))]
        exact ih (fun u hu => h u (by simp [hu]))
  exact this _ hblank

theorem snapLoop_tickers (env : Env) (toks : List String) :
    (snapLoop env toks).map SnapRec.ticker = parseToks toks := by
  rw [snapLoop_eq, List.map_map]
  have h : SnapRec.ticker ∘ mkSnapRec env = id := funext fun s => rfl
  rw [h, List.map_id]

theorem newsLoop_tickers (env : Env) (fromT toT : ℤ) (toks : List String) :
    (newsLoop env fromT toT toks).map NewsDigest.ticker = parseToks toks := by
  rw [newsLoop_eq, List.map_map]
  have h : NewsDigest.ticker ∘ (fun sym => (⟨sym,
      ((http_get_news env sym fromT toT).take 3).map mkNewsItem⟩ : NewsDigest)) = id :=
    funext fun s => rfl
  rw [h, List.map_id]

/-! ### Claim theorems -/

/-- C1: `normalize_div_yield` maps `None` and non-coercible values to
null; a coerced value strictly between 0 and 1 becomes
`round(v * 100, 4)`; every other coerced value (0, 1, above 1, negative)
becomes `round(v, 4)`. -/
theorem normalize_div_yield_spec (raw : Atom) :
    (raw = .anull → normalize_div_yield raw = none) ∧
    (pyFloat raw = none → normalize_div_yield raw = none) ∧
    (∀ v : ℚ, pyFloat raw = some v → 0 < v → v < 1 →
      normalize_div_yield raw = some (round4 (v * 100))) ∧
    (∀ v : ℚ, pyFloat raw = some v → ¬(0 < v ∧ v < 1) →
      normalize_div_yield raw = some (round4 v)) := by
  by_cases hnull : raw = .anull
  · subst hnull
    refine ⟨fun _ => rfl, fun _ => rfl, ?_, ?_⟩ <;>
      · intro v hv
        exact absurd hv (by simp [pyFloat])
  · refine ⟨fun h => absurd h hnull, ?_, ?_, ?_⟩
    · intro h
      simp [normalize_div_yield, hnull, h]
    · intro v hv h0 h1
      simp [normalize_div_yield, hnull, hv, h0, h1]
    · intro v hv hnot
      simp only [normalize_div_yield, hnull, if_false, hv]
      rw [if_neg hnot]

/-- C1 witness: the fraction 1/2 (raw value 0.5) is scaled to 50%. -/
theorem normalize_div_yield_spec_witness :
    (0 : ℚ) < 1 / 2 ∧ (1 : ℚ) / 2 < 1 ∧
    normalize_div_yield (.anum (1 / 2)) = some 50 := by
  refine ⟨by norm_num, by norm_num, ?_⟩
  have h := (normalize_div_yield_spec (.anum (1 / 2))).2.2.1 (1 / 2) rfl
    (by norm_num) (by norm_num)
  rw [h]
  have : round4 ((1 : ℚ) / 2 * 100) = 50 := by
    have h50 : (1 : ℚ) / 2 * 100 = 50 := by norm_num
    rw [h50]
    unfold round4 roundHalfEven
    have hfl : Rat.floor ((50 : ℚ) * 10000) = 500000 := by
      norm_num
      rfl
    rw [show (50 : ℚ) * 10000 = 500000 by norm_num] at hfl ⊢
    rw [hfl]
    norm_num
  rw [this]

/-- C3 (code bug): the candidate string "--5" passes the digit guard
(which strips every leading dash) but `float("--5")` raises, so
`get_metrics` raises instead of nulling the field and the fundamentals
request fails with a 500 rather than producing `pe_ttm = null`. -/
theorem metrics_guard_crash :
    digitGuard (pyStr (.astr "--5")) = true ∧
    coerceField (.astr "--5") = .error () ∧
    get_metrics envBadPE "AAPL" = .error () ∧
    get_fundamentals envBadPE ⟨2099, 1, 1⟩ "AAPL" = .error .exn ∧
    respStatus (get_fundamentals envBadPE ⟨2099, 1, 1⟩ "AAPL") = 500 :=
  ⟨rfl, rfl, rfl, rfl, rfl⟩

/-- C6 counterexample: a request missing the `tickers` parameter is
rejected by framework validation with status 422, not the claimed 400. -/
theorem missing_tickers_not_400 :
    respStatus (dispatchRequired (get_market_snapshot envFail 0) none) = 422 ∧
    (422 : Nat) ≠ 400 :=
  ⟨rfl, by decide⟩

/-- C6 amended: an empty `tickers` yields HTTP 400 with the
comma-separated-format message on all three endpoints, independently of
the upstream environment (so no upstream call is observable); a missing
`tickers` is rejected by framework validation with HTTP 422, the handler
body never running. -/
theorem tickers_param_validation (env env2 : Env) (now : ℤ) (today : Date) (lb : ℤ) :
    get_market_snapshot env now "" = .error (.httpError 400 noTickersDetail) ∧
    get_fundamentals env today "" = .error (.httpError 400 noTickersDetail) ∧
    get_news_brief env now "" lb = .error (.httpError 400 noTickersDetail) ∧
    get_market_snapshot env now "" = get_market_snapshot env2 now "" ∧
    get_fundamentals env today "" = get_fundamentals env2 today "" ∧
    get_news_brief env now "" lb = get_news_brief env2 now "" lb ∧
    dispatchRequired (get_market_snapshot env now) none =
      .error (.httpError 422 "Field required") ∧
    dispatchRequired (get_fundamentals env today) none =
      .error (.httpError 422 "Field required") ∧
    dispatchRequired (fun s => get_news_brief env now s lb) none =
      .error (.httpError 422 "Field required") :=
  ⟨rfl, rfl, rfl, rfl, rfl, rfl, rfl, rfl, rfl⟩

/-- C8: the P/E candidate is `peBasicExclExtraTTM` with fallback `peTTM`;
the EPS candidate is `epsInclExtraItemsTTM`, then `epsTTM`, then
`epsNormalizedAnnual`; a candidate that stays `None` coerces to null. -/
theorem metric_candidate_preference (m : List (String × Atom)) :
    (pyGet m "peBasicExclExtraTTM" ≠ .anull →
      peCand m = pyGet m "peBasicExclExtraTTM") ∧
    (pyGet m "peBasicExclExtraTTM" = .anull → peCand m = pyGet m "peTTM") ∧
    (pyGet m "epsInclExtraItemsTTM" ≠ .anull →
      epsCand m = pyGet m "epsInclExtraItemsTTM") ∧
    (pyGet m "epsInclExtraItemsTTM" = .anull → pyGet m "epsTTM" ≠ .anull →
      epsCand m = pyGet m "epsTTM") ∧
    (pyGet m "epsInclExtraItemsTTM" = .anull → pyGet m "epsTTM" = .anull →
      epsCand m = pyGet m "epsNormalizedAnnual") ∧
    coerceField .anull = .ok none := by
  refine ⟨?_, ?_, ?_, ?_, ?_, rfl⟩
  · intro h
    simp [peCand, h]
  · intro h
    simp [peCand, h]
  · intro h
    simp [epsCand, h]
  · intro h1 h2
    simp [epsCand, h1, h2]
  · intro h1 h2
    simp [epsCand, h1, h2]

/-- C8 witness: with only `peTTM` (resp. only `epsTTM`) present, the
fallback is selected. -/
theorem metric_candidate_preference_witness :
    peCand [("peTTM", Atom.aint 7)] = .aint 7 ∧
    epsCand [("epsTTM", Atom.aint 8)] = .aint 8 := by
  constructor
  · have h := (metric_candidate_preference [("peTTM", Atom.aint 7)]).2.1 (by decide)
    rw [h]
    decide
  · have h := (metric_candidate_preference [("epsTTM", Atom.aint 8)]).2.2.2.1
      (by decide) (by decide)
    rw [h]
    decide

/-- C2: `get_next_earnings` returns the ISO rendering of the minimum
qualifying date (exact symbol match, parseable string date, on or after
today) and null exactly when no date qualifies; a returned date is never
strictly before today. -/
theorem get_next_earnings_spec (env : Env) (symbol : String) (today : Date) :
    (∀ s, get_next_earnings env symbol today = some s →
      ∃ d, s = d.isoformat ∧ today.key ≤ d.key ∧
        Qualifies (calOf env) symbol today d ∧
        ∀ e, Qualifies (calOf env) symbol today e → d.key ≤ e.key) ∧
    (get_next_earnings env symbol today = none →
      ∀ d, ¬ Qualifies (calOf env) symbol today d) := by
  cases hmin : minD (futureDates (calOf env) symbol today) with
  | none =>
      constructor
      · intro s hs
        simp [get_next_earnings, hmin] at hs
      · intro _ d hq
        have hd : d ∈ futureDates (calOf env) symbol today := mem_futureDates.mpr hq
        rw [minD_eq_none.mp hmin] at hd
        exact absurd hd (by simp)
  | some m =>
      constructor
      · intro s hs
        have hsm : s = m.isoformat := by
          simp only [get_next_earnings, hmin] at hs
          exact (Option.some_inj.mp hs).symm
        have hqm : Qualifies (calOf env) symbol today m :=
          mem_futureDates.mp (minD_mem hmin)
        have htoday : today.key ≤ m.key := by
          obtain ⟨row, -, -, s', -, -, hk⟩ := hqm
          exact hk
        exact ⟨m, hsm, htoday, hqm,
          fun e he => minD_le hmin e (mem_futureDates.mpr he)⟩
      · intro h
        simp [get_next_earnings, hmin] at h

/-- C2 witness: the spec's example calendar (`X`: 2099-01-01 and
2099-03-01, today 2098-12-01) yields "2099-01-01", a qualifying minimum
on or after today. -/
theorem get_next_earnings_spec_witness :
    get_next_earnings envCal "X" d20981201 = some "2099-01-01" ∧
    ∃ d, "2099-01-01" = d.isoformat ∧ d20981201.key ≤ d.key ∧
      Qualifies (calOf envCal) "X" d20981201 d ∧
      ∀ e, Qualifies (calOf envCal) "X" d20981201 e → d.key ≤ e.key :=
  ⟨by decide, (get_next_earnings_spec envCal "X" d20981201).1 "2099-01-01" (by decide)⟩

/-- C4: a failing `/quote` call degrades to the empty object, and the
affected ticker still appears in the snapshot output with all data
fields null while the request as a whole succeeds. -/
theorem quote_failure_degrades (env : Env) (now : ℤ) (ts sym : String)
    (hq : env.quote sym = .error ()) (hmem : sym ∈ pyParseTickers ts) :
    http_get_quote env sym = emptyQuote ∧
    ∃ recs, get_market_snapshot env now ts = .ok ⟨now, recs⟩ ∧
      sym ∈ recs.map SnapRec.ticker ∧
      ∀ r ∈ recs, r.ticker = sym →
        r.price = .anull ∧ r.change_pct = .anull ∧ r.volume = .anull ∧
        r.range_day = none := by
  have hqq : http_get_quote env sym = emptyQuote := by
    simp [http_get_quote, http_get, hq]
  refine ⟨hqq, ?_⟩
  have hne : ts ≠ "" := by
    rintro rfl
    rw [show pyParseTickers "" = [] from by decide] at hmem
    exact absurd hmem (by simp)
  refine ⟨snapLoop env (pySplitComma ts), by simp [get_market_snapshot, hne], ?_, ?_⟩
  · rw [snapLoop_tickers]
    exact hmem
  · intro r hr hticker
    rw [snapLoop_eq, List.mem_map] at hr
    obtain ⟨s, hs, rfl⟩ := hr
    have hss : s = sym := hticker
    subst hss
    refine ⟨?_, ?_, ?_, ?_⟩ <;> simp [mkSnapRec, hqq, emptyQuote]

/-- C4 witness: with every upstream call failing, ticker "fail" still
produces an all-null snapshot record for "FAIL". -/
theorem quote_failure_degrades_witness :
    http_get_quote envFail "FAIL" = emptyQuote ∧
    ∃ recs, get_market_snapshot envFail 0 "fail" = .ok ⟨0, recs⟩ ∧
      "FAIL" ∈ recs.map SnapRec.ticker ∧
      ∀ r ∈ recs, r.ticker = "FAIL" →
        r.price = .anull ∧ r.change_pct = .anull ∧ r.volume = .anull ∧
        r.range_day = none :=
  quote_failure_degrades envFail 0 "fail" "FAIL" rfl (by decide)

/-- C5: `get_news_brief` clamps `lookback_hours` into [1, 168] before
computing the window (1000 clamps to 168), and each digest carries the
first 3 upstream items in upstream order. -/
theorem news_brief_clamp_truncate (env : Env) (now : ℤ) (ts : String) (lb : ℤ)
    (hne : ts ≠ "") :
    1 ≤ max 1 (min lb (24 * 7)) ∧ max 1 (min lb (24 * 7)) ≤ 168 ∧
    (1 ≤ lb → lb ≤ 168 → max 1 (min lb (24 * 7)) = lb) ∧
    max 1 (min (1000 : ℤ) (24 * 7)) = 168 ∧
    ∃ ds, get_news_brief env now ts lb = .ok ⟨ds⟩ ∧
      ds.map NewsDigest.ticker = pyParseTickers ts ∧
      ∀ dg ∈ ds, dg.items =
          ((http_get_news env dg.ticker (now - max 1 (min lb (24 * 7))) now).take 3).map
            mkNewsItem ∧
        dg.items.length ≤ 3 := by
  refine ⟨le_max_left 1 _, max_le (by norm_num) (by
      calc min lb (24 * 7) ≤ 24 * 7 := min_le_right _ _
        _ = 168 := by norm_num), ?_, by norm_num, ?_⟩
  · intro h1 h2
    rw [min_eq_left (by omega : lb ≤ 24 * 7), max_eq_right h1]
  · refine ⟨newsLoop env (now - max 1 (min lb (24 * 7))) now (pySplitComma ts),
      by simp [get_news_brief, hne], ?_, ?_⟩
    · rw [newsLoop_tickers]
      rfl
    · intro dg hdg
      rw [newsLoop_eq, List.mem_map] at hdg
      obtain ⟨s, hs, rfl⟩ := hdg
      refine ⟨rfl, ?_⟩
      show (((http_get_news env s _ now).take 3).map mkNewsItem).length ≤ 3
      rw [List.length_map, List.length_take]
      omega

/-- C5 witness: lookback 1000 clamps to 168, and the digest for "AAPL"
(failing news upstream) is the empty truncation. -/
theorem news_brief_clamp_truncate_witness :
    max 1 (min (1000 : ℤ) (24 * 7)) = 168 ∧
    ∃ ds, get_news_brief envFail 0 "aapl" 1000 = .ok ⟨ds⟩ ∧
      ds.map NewsDigest.ticker = pyParseTickers "aapl" ∧
      ∀ dg ∈ ds, dg.items =
          ((http_get_news envFail dg.ticker
            (0 - max 1 (min (1000 : ℤ) (24 * 7))) 0).take 3).map mkNewsItem ∧
        dg.items.length ≤ 3 := by
  have h := news_brief_clamp_truncate envFail 0 "aapl" 1000 (by decide)
  exact ⟨h.2.2.2.1, h.2.2.2.2⟩

/-- C7: every endpoint's records follow the parsed ticker list in input
order; parsed symbols are non-empty and upper-cased; lowercase and
uppercase ticker strings produce identical outputs. -/
theorem ticker_parse_normalization (env : Env) (now : ℤ) (today : Date) (lb : ℤ)
    (ts : String) (hne : ts ≠ "") :
    (∃ recs, get_market_snapshot env now ts = .ok ⟨now, recs⟩ ∧
      recs.map SnapRec.ticker = pyParseTickers ts) ∧
    (∀ rs, get_fundamentals env today ts = .ok ⟨rs⟩ →
      rs.map FundRec.ticker = pyParseTickers ts) ∧
    (∃ ds, get_news_brief env now ts lb = .ok ⟨ds⟩ ∧
      ds.map NewsDigest.ticker = pyParseTickers ts) ∧
    (∀ s ∈ pyParseTickers ts, s ≠ "" ∧ pyUpper s = s) ∧
    get_market_snapshot env now "aapl" = get_market_snapshot env now "AAPL" ∧
    get_fundamentals env today "aapl" = get_fundamentals env today "AAPL" ∧
    get_news_brief env now "aapl" lb = get_news_brief env now "AAPL" lb := by
  have h1 : pyUpper (pyStrip "aapl") = "AAPL" := by decide
  have h2 : pyUpper (pyStrip "AAPL") = "AAPL" := by decide
  refine ⟨?_, ?_, ?_, ?_, ?_, ?_, ?_⟩
  · exact ⟨snapLoop env (pySplitComma ts), by simp [get_market_snapshot, hne],
      snapLoop_tickers env _⟩
  · intro rs h
    simp only [get_fundamentals, if_neg hne] at h
    cases hfl : fundLoop env today (pySplitComma ts) with
    | error e => rw [hfl] at h; exact absurd h (by simp)
    | ok rs2 =>
        rw [hfl] at h
        obtain rfl : rs2 = rs := by simpa using h
        exact fundLoop_ok_map hfl
  · exact ⟨newsLoop env (now - max 1 (min lb (24 * 7))) now (pySplitComma ts),
      by simp [get_news_brief, hne], newsLoop_tickers env _ _ _⟩
  · exact fun s hs => mem_parseToks_nonempty_upper hs
  · simp only [get_market_snapshot]
    rw [if_neg (by decide : ¬("aapl" = "")), if_neg (by decide : ¬("AAPL" = ""))]
    rw [snapLoop_eq, snapLoop_eq,
      show parseToks (pySplitComma "aapl") = parseToks (pySplitComma "AAPL") from by decide]
  · simp only [get_fundamentals]
    rw [if_neg (by decide : ¬("aapl" = "")), if_neg (by decide : ¬("AAPL" = ""))]
    have he : fundLoop env today (pySplitComma "aapl") =
        fundLoop env today (pySplitComma "AAPL") := by
      rw [show pySplitComma "aapl" = ["aapl"] from by decide,
        show pySplitComma "AAPL" = ["AAPL"] from by decide]
      simp only [fundLoop]
      rw [h1, h2]
    rw [he]
  · simp only [get_news_brief]
    rw [if_neg (by decide : ¬("aapl" = "")), if_neg (by decide : ¬("AAPL" = ""))]
    rw [newsLoop_eq, newsLoop_eq,
      show parseToks (pySplitComma "aapl") = parseToks (pySplitComma "AAPL") from by decide]

/-- C7 witness: instantiated at the all-failing environment and
`tickers = "aapl"`. -/
theorem ticker_parse_normalization_witness :
    (∃ recs, get_market_snapshot envFail 0 "aapl" = .ok ⟨0, recs⟩ ∧
      recs.map SnapRec.ticker = pyParseTickers "aapl") ∧
    (∀ rs, get_fundamentals envFail d20981201 "aapl" = .ok ⟨rs⟩ →
      rs.map FundRec.ticker = pyParseTickers "aapl") ∧
    (∃ ds, get_news_brief envFail 0 "aapl" 48 = .ok ⟨ds⟩ ∧
      ds.map NewsDigest.ticker = pyParseTickers "aapl") ∧
    (∀ s ∈ pyParseTickers "aapl", s ≠ "" ∧ pyUpper s = s) ∧
    get_market_snapshot envFail 0 "aapl" = get_market_snapshot envFail 0 "AAPL" ∧
    get_fundamentals envFail d20981201 "aapl" =
      get_fundamentals envFail d20981201 "AAPL" ∧
    get_news_brief envFail 0 "aapl" 48 = get_news_brief envFail 0 "AAPL" 48 :=
  ticker_parse_normalization envFail 0 d20981201 48 "aapl" (by decide)

/-- C9: `range_day` is `str(low) ++ "–" ++ str(high)` (the U+2013 dash of
the source f-string) exactly when both `l` and `h` are non-null, else
null; `range_52w`, `market_cap` and `beta` are always null. -/
theorem snapshot_range_day_nulls (env : Env) (now : ℤ) (ts : String)
    (hne : ts ≠ "") :
    ∃ recs, get_market_snapshot env now ts = .ok ⟨now, recs⟩ ∧
      ∀ r ∈ recs,
        r.range_day = (if (http_get_quote env r.ticker).l ≠ .anull ∧
              (http_get_quote env r.ticker).h ≠ .anull
            then some (pyStr (http_get_quote env r.ticker).l ++ "–" ++
              pyStr (http_get_quote env r.ticker).h)
            else none) ∧
        r.range_52w = .anull ∧ r.market_cap = .anull ∧ r.beta = .anull := by
  refine ⟨snapLoop env (pySplitComma ts), by simp [get_market_snapshot, hne], ?_⟩
  intro r hr
  rw [snapLoop_eq, List.mem_map] at hr
  obtain ⟨s, hs, rfl⟩ := hr
  exact ⟨rfl, rfl, rfl, rfl⟩

/-- C9 witness: a populated quote (l = 4, h = 5) renders "4–5"; the
free-tier fields stay null. -/
theorem snapshot_range_day_nulls_witness :
    ∃ recs, get_market_snapshot envQuote 0 "aapl" = .ok ⟨0, recs⟩ ∧
      ∀ r ∈ recs,
        r.range_day = (if (http_get_quote envQuote r.ticker).l ≠ .anull ∧
              (http_get_quote envQuote r.ticker).h ≠ .anull
            then some (pyStr (http_get_quote envQuote r.ticker).l ++ "–" ++
              pyStr (http_get_quote envQuote r.ticker).h)
            else none) ∧
        r.range_52w = .anull ∧ r.market_cap = .anull ∧ r.beta = .anull :=
  snapshot_range_day_nulls envQuote 0 "aapl" (by decide)

/-- C10: a non-empty tickers string made only of commas and whitespace
passes the emptiness check and yields HTTP 200 with an empty result list
on all three endpoints, unlike the empty string's HTTP 400. -/
theorem blank_tickers_two_hundred (env : Env) (now : ℤ) (today : Date)
    (ts : String) (hne : ts ≠ "")
    (hch : ∀ c ∈ ts.data, c = ',' ∨ isPySpace c = true) :
    get_market_snapshot env now ts = .ok ⟨now, []⟩ ∧
    get_fundamentals env today ts = .ok ⟨[]⟩ ∧
    get_news_brief env now ts 48 = .ok ⟨[]⟩ ∧
    respStatus (get_market_snapshot env now ts) = 200 ∧
    get_market_snapshot env now "" = .error (.httpError 400 noTickersDetail) := by
  obtain ⟨hblank, hparse⟩ := pyParseTickers_all_sep hch
  have hparse' : parseToks (pySplitComma ts) = [] := hparse
  have hsnap : get_market_snapshot env now ts = .ok ⟨now, []⟩ := by
    simp only [get_market_snapshot, if_neg hne]
    rw [snapLoop_eq, hparse']
    rfl
  refine ⟨hsnap, ?_, ?_, by rw [hsnap]; rfl, rfl⟩
  · simp only [get_fundamentals, if_neg hne]
    rw [fundLoop_all_blank hblank]
  · simp only [get_news_brief, if_neg hne]
    rw [newsLoop_eq, hparse']
    rfl

/-- C10 witness: `tickers = " , "` yields 200 with empty lists. -/
theorem blank_tickers_two_hundred_witness :
    get_market_snapshot envFail 0 " , " = .ok ⟨0, []⟩ ∧
    get_fundamentals envFail d20981201 " , " = .ok ⟨[]⟩ ∧
    get_news_brief envFail 0 " , " 48 = .ok ⟨[]⟩ ∧
    respStatus (get_market_snapshot envFail 0 " , ") = 200 ∧
    get_market_snapshot envFail 0 "" = .error (.httpError 400 noTickersDetail) :=
  blank_tickers_two_hundred envFail 0 d20981201 " , " (by decide) (by decide)

end MarketDigest
